import Mathlib

/-!
Verification development for the model-viewer crop/clip engine
(`ModelViewer.jsx`).  The geometric core is embedded shallowly over ℚ:
every numeric operation of the source (coordinate arithmetic, plane
tests, interpolation) is translated to exact rational arithmetic, and
the floating-point square root used only inside the sliver-area
comparison `‖cross‖ > c` is encoded by the equivalent rational
predicate `c < 0 ∨ c^2 < ‖cross‖²`.  External collaborators of the
engine (the CSG library, `mergeVertices`/normal recomputation, and the
matrix inverses of three.js) enter as function parameters, mirroring
the way the source consumes them.
-/

set_option maxHeartbeats 1000000

/-- Tolerance `EPS = 1e-7` shared by the clipper (source line 420). -/
def EPS : ℚ := 1 / 10000000

/-- 2D point (UV coordinate). -/
structure Vec2 where
  x : ℚ
  y : ℚ
deriving DecidableEq, Inhabited

/-- 3D point / vector over ℚ. -/
structure Vec3 where
  x : ℚ
  y : ℚ
  z : ℚ
deriving DecidableEq, Inhabited

instance : Add Vec3 := ⟨fun a b => ⟨a.x + b.x, a.y + b.y, a.z + b.z⟩⟩

instance : Sub Vec3 := ⟨fun a b => ⟨a.x - b.x, a.y - b.y, a.z - b.z⟩⟩

/-- Componentwise product (three.js `Vector3.multiply`). -/
instance : Mul Vec3 := ⟨fun a b => ⟨a.x * b.x, a.y * b.y, a.z * b.z⟩⟩

/-- Scalar multiple of a `Vec3`. -/
def Vec3.smul (q : ℚ) (v : Vec3) : Vec3 := ⟨q * v.x, q * v.y, q * v.z⟩

/-- three.js `Vector3.lerp`: `a + t*(b - a)` componentwise. -/
def Vec3.lerp (a b : Vec3) (t : ℚ) : Vec3 :=
  ⟨a.x + t * (b.x - a.x), a.y + t * (b.y - a.y), a.z + t * (b.z - a.z)⟩

/-- three.js `Vector2.lerp`. -/
def Vec2.lerp (a b : Vec2) (t : ℚ) : Vec2 :=
  ⟨a.x + t * (b.x - a.x), a.y + t * (b.y - a.y)⟩

/-- Cross product (three.js `Vector3.crossVectors`). -/
def Vec3.cross (a b : Vec3) : Vec3 :=
  ⟨a.y * b.z - a.z * b.y, a.z * b.x - a.x * b.z, a.x * b.y - a.y * b.x⟩

/-- Squared Euclidean norm; `Vector3.length()` is its square root. -/
def Vec3.normSq (a : Vec3) : ℚ := a.x ^ 2 + a.y ^ 2 + a.z ^ 2

/-- `Math.abs` on ℚ. -/
def qabs (q : ℚ) : ℚ := if q < 0 then -q else q

/-- Componentwise absolute value. -/
def Vec3.vabs (a : Vec3) : Vec3 := ⟨qabs a.x, qabs a.y, qabs a.z⟩

/-- Largest component, `Math.max(v.x, v.y, v.z)`. -/
def Vec3.max3 (v : Vec3) : ℚ := max (max v.x v.y) v.z

theorem Vec3.add_def (a b : Vec3) : a + b = ⟨a.x + b.x, a.y + b.y, a.z + b.z⟩ := rfl

theorem Vec3.sub_def (a b : Vec3) : a - b = ⟨a.x - b.x, a.y - b.y, a.z - b.z⟩ := rfl

theorem Vec3.mul_def (a b : Vec3) : a * b = ⟨a.x * b.x, a.y * b.y, a.z * b.z⟩ := rfl

/-- Clip-plane axis selector (the source switches on the string
`plane.axis ∈ {x,y,z}`). -/
inductive Axis where
  | x
  | y
  | z
deriving DecidableEq, Inhabited

/-- Coordinate of `v` along `a` (the source's `p.pb[axis]`). -/
def Vec3.get (v : Vec3) (a : Axis) : ℚ :=
  match a with
  | .x => v.x
  | .y => v.y
  | .z => v.z

/-- Clip-time vertex (source `makeV` / `intersect` result): world
position `pw`, volume-local position `pb`, optional UV. -/
structure ClipVertex where
  pw : Vec3
  pb : Vec3
  uv : Option Vec2
deriving DecidableEq, Inhabited

/-- One of the six clip planes `{ axis, s, limit }` (source lines
427-434). -/
structure Plane where
  axis : Axis
  s : ℚ
  limit : ℚ
deriving DecidableEq, Inhabited

/-- Vertex-inside test of `clipByPlane`:
`s * getCoord(p) <= limit + EPS` (source line 455). -/
def Plane.isInside (pl : Plane) (p : ClipVertex) : Bool :=
  decide (pl.s * p.pb.get pl.axis ≤ pl.limit + EPS)

/-- Interpolation parameter of `intersect` (source lines 478-491):
`t = (limit - a)/(b - a)`, with the near-parallel fallback `t = 1/2`
when `|b - a| < EPS`, clamped into `[0,1]`.  (The JavaScript
`Number.isFinite` re-check is vacuous over ℚ: the division is only
taken when `|b - a| ≥ EPS > 0`.) -/
def tOf (A B : ClipVertex) (axis : Axis) (limit : ℚ) : ℚ :=
  let a := A.pb.get axis
  let b := B.pb.get axis
  let denom := b - a
  let t0 := if |denom| < EPS then (1 : ℚ) / 2 else (limit - a) / denom
  if t0 < 0 then 0 else if t0 > 1 then 1 else t0

/-- Source `intersect(A, B, axis, limit)`: linear interpolation of
world position, box-local position and (when present) UV, all with the
same parameter `t`. -/
def intersect (A B : ClipVertex) (axis : Axis) (limit : ℚ) : ClipVertex :=
  let t := tOf A B axis limit
  { pw := A.pw.lerp B.pw t
    pb := A.pb.lerp B.pb t
    uv :=
      match A.uv, B.uv with
      | some ua, some ub => some (ua.lerp ub t)
      | _, _ => none }

/-- Per-edge emission of `clipByPlane` (source lines 459-471), the
if/else chain exactly as written. -/
def emitCase (pl : Plane) (prev cur : ClipVertex) : List ClipVertex :=
  let curIn := pl.isInside cur
  let prevIn := pl.isInside prev
  if curIn && prevIn then [cur]
  else if prevIn && !curIn then [intersect prev cur pl.axis pl.limit]
  else if !prevIn && curIn then [intersect prev cur pl.axis pl.limit, cur]
  else []

/-- `concatMap f l` is the flattening of `map f l`; used to collect
the `res.push(...)` emissions of the source loops in order. -/
def concatMap (f : α → List β) : List α → List β
  | [] => []
  | x :: xs => f x ++ concatMap f xs

/-- Source `clipByPlane(poly, plane)`: iterate `i = 0 .. poly.length-1`
with `cur = poly[i]`, `prev = poly[(i + poly.length - 1) % poly.length]`,
emitting per `emitCase`; the empty polygon returns empty at once. -/
def clipByPlane (poly : List ClipVertex) (pl : Plane) : List ClipVertex :=
  if poly.length = 0 then []
  else
    concatMap
      (fun i =>
        emitCase pl
          (poly.getD ((i + poly.length - 1) % poly.length) default)
          (poly.getD i default))
      (List.range poly.length)

/-- Wrap-around edge pairs `(prev, cur)` of a polygon: `prev` of the
first vertex is the last vertex. -/
def wrapPairs (l : List ClipVertex) : List (ClipVertex × ClipVertex) :=
  match l with
  | [] => []
  | v :: vs => ((v :: vs).getLast (List.cons_ne_nil v vs) :: (v :: vs).dropLast).zip (v :: vs)

/-- Modelled from the spec: the per-edge emission cases of the claim —
both inside emit `cur`; leaving emits the intersection only; entering
emits the intersection then `cur`; both outside emit nothing. -/
def specEmit (pl : Plane) (prev cur : ClipVertex) : List ClipVertex :=
  match pl.isInside prev, pl.isInside cur with
  | true, true => [cur]
  | true, false => [intersect prev cur pl.axis pl.limit]
  | false, true => [intersect prev cur pl.axis pl.limit, cur]
  | false, false => []

/-- Source vertex of the (non-indexed) geometry: local-space position
and, when the geometry has a `uv` attribute, its UV. -/
structure SrcVertex where
  p : Vec3
  uv : Option Vec2
deriving DecidableEq, Inhabited

/-- Non-indexed triangle-soup geometry: position attribute and, when
present, a parallel UV attribute. -/
structure SrcGeom where
  pos : List Vec3
  uv : Option (List Vec2)
deriving DecidableEq, Inhabited

/-- Pair the position attribute with the UV attribute (the per-index
reads of `makeV`). -/
def mkVerts (g : SrcGeom) : List SrcVertex :=
  match g.uv with
  | none => g.pos.map (fun p => ⟨p, none⟩)
  | some us => (g.pos.zip us).map (fun pu => ⟨pu.1, some pu.2⟩)

/-- Source `makeV`: world position via the mesh's `localToWorld`
matrix, box-local position via `invBoxMatrixWorld`, UV carried over. -/
def toClip (ltw invB : Vec3 → Vec3) (sv : SrcVertex) : ClipVertex :=
  { pw := ltw sv.p, pb := invB (ltw sv.p), uv := sv.uv }

/-- Source `insideX` (lines 424-426): `v.x ≤ half.x + EPS` and
`v.x ≥ -half.x - EPS`. -/
def insideX (half v : Vec3) : Bool :=
  decide (v.x ≤ half.x + EPS) && decide (-half.x - EPS ≤ v.x)

/-- Source `insideY`. -/
def insideY (half v : Vec3) : Bool :=
  decide (v.y ≤ half.y + EPS) && decide (-half.y - EPS ≤ v.y)

/-- Source `insideZ`. -/
def insideZ (half v : Vec3) : Bool :=
  decide (v.z ≤ half.z + EPS) && decide (-half.z - EPS ≤ v.z)

/-- Quick-accept test of one box-local point on all three axes. -/
def insideBox (half v : Vec3) : Bool :=
  insideX half v && insideY half v && insideZ half v

/-- The six clip planes in source order (lines 427-434). -/
def planesFor (half : Vec3) : List Plane :=
  [⟨.x, 1, half.x⟩, ⟨.x, -1, half.x⟩,
   ⟨.y, 1, half.y⟩, ⟨.y, -1, half.y⟩,
   ⟨.z, 1, half.z⟩, ⟨.z, -1, half.z⟩]

/-- Rational encoding of `c < Real.sqrt q` for `0 ≤ q`: the area
filter keeps a triangle iff `scale*1e-7 < ‖e1 × e2‖`; since the
cross-product length is a square root, the strict comparison is
`c < 0 ∨ c^2 < ‖e1 × e2‖²`. -/
def ltNorm (c q : ℚ) : Prop := c < 0 ∨ c ^ 2 < q

instance (c q : ℚ) : Decidable (ltNorm c q) := by
  unfold ltNorm; infer_instance

/-- Area filter of the fan loop (source lines 524-528): keep a fan
triangle iff its world cross product has length above
`max3 half * EPS` (the JavaScript `!Number.isFinite` escape is
vacuous over ℚ). -/
def keepTri (half : Vec3) (t : ClipVertex × ClipVertex × ClipVertex) : Bool :=
  let e1 := t.2.1.pw - t.1.pw
  let e2 := t.2.2.pw - t.1.pw
  decide (ltNorm (half.max3 * EPS) (Vec3.normSq (e1.cross e2)))

/-- Fan triangulation (source lines 516-519): triangles
`(poly[0], poly[k], poly[k+1])` for `k = 1 .. poly.length - 2`. -/
def fanTris (poly : List ClipVertex) : List (ClipVertex × ClipVertex × ClipVertex) :=
  match poly with
  | [] => []
  | v0 :: rest => (rest.zip rest.tail).map (fun ab => (v0, ab.1, ab.2))

/-- UVs pushed for one emitted fan triangle (source lines 533-535). -/
def uvTriple (t : ClipVertex × ClipVertex × ClipVertex) : List Vec2 :=
  match t.1.uv, t.2.1.uv, t.2.2.uv with
  | some a, some b, some c => [a, b, c]
  | _, _, _ => []

/-- Per-triangle body of the `clipMeshKeepInside` main loop (source
lines 500-536): build the 3-vertex polygon, quick-accept when all
vertices are inside the box on every axis, otherwise clip against the
six planes in order; discard polygons with fewer than 3 vertices;
fan-triangulate, filter slivers, and emit local-space positions (via
`worldToLocal`) and UVs. -/
def processTri (ltw wtl invB : Vec3 → Vec3) (half : Vec3)
    (v0 v1 v2 : SrcVertex) : List Vec3 × List Vec2 :=
  let poly0 := [toClip ltw invB v0, toClip ltw invB v1, toClip ltw invB v2]
  let allIn := poly0.all (fun p => insideBox half p.pb)
  let poly := if allIn then poly0 else (planesFor half).foldl clipByPlane poly0
  if poly.length < 3 then ([], [])
  else
    let kept := (fanTris poly).filter (keepTri half)
    (concatMap (fun t => [wtl t.1.pw, wtl t.2.1.pw, wtl t.2.2.pw]) kept,
     concatMap uvTriple kept)

/-- Group a flat vertex list into complete consecutive triples (the
`i += 3` loop); a trailing incomplete triple contributes nothing, as
its out-of-range reads fail every inside/area test in the source. -/
def triChunks3 : List α → List (α × α × α)
  | a :: b :: c :: rest => (a, b, c) :: triChunks3 rest
  | _ => []

/-- Concatenate componentwise the per-triangle `(positions, uvs)`
emissions (the `outPos` / `outUV` accumulators). -/
def accumTris (f : α → List β × List γ) : List α → List β × List γ
  | [] => ([], [])
  | x :: xs =>
    let r := f x
    let rest := accumTris f xs
    (r.1 ++ rest.1, r.2 ++ rest.2)

/-- Source `clipMeshKeepInside` (lines 412-544), with the mesh's
`matrixWorld`, its inverse, and the box inverse matrix abstracted as
the point maps `ltw`, `wtl`, `invB`.  Returns `none` when no output
position was pushed; otherwise the new geometry, with a UV attribute
exactly when the source geometry has one. -/
def clipAccum (ltw wtl invB : Vec3 → Vec3) (g : SrcGeom) (half : Vec3) :
    List Vec3 × List Vec2 :=
  accumTris
    (fun t => processTri ltw wtl invB half t.1 t.2.1 t.2.2)
    (triChunks3 (mkVerts g))

def clipMeshKeepInside (ltw wtl invB : Vec3 → Vec3) (g : SrcGeom) (half : Vec3) :
    Option SrcGeom :=
  let res := clipAccum ltw wtl invB g half
  if res.1.isEmpty then none
  else some { pos := res.1, uv := if g.uv.isSome then some res.2 else none }

/-- Crop region as edited in the panel (`crop` prop):
`minX..maxX, minY..maxY, minZ..maxZ`. -/
structure CropRegion where
  minX : ℚ
  maxX : ℚ
  minY : ℚ
  maxY : ℚ
  minZ : ℚ
  maxZ : ℚ
deriving DecidableEq, Inhabited

/-- `size` of the crop region (source line 292). -/
def CropRegion.size (c : CropRegion) : Vec3 :=
  ⟨c.maxX - c.minX, c.maxY - c.minY, c.maxZ - c.minZ⟩

/-- One candidate mesh of the crop traversal: skinned flag, its
local→world point map and the inverse (three.js `matrixWorld` and its
inverse), current geometry and visibility. -/
structure CropMesh where
  isSkinned : Bool
  ltw : Vec3 → Vec3
  wtl : Vec3 → Vec3
  geom : SrcGeom
  visible : Bool

/-- Commit of a successful CSG intersection (source lines 331-342):
the world-space result is mapped back into the mesh's local space,
cleaned (`mergeVertices` + normals/bounds, abstracted as `clean`),
installed as the mesh's geometry, and the mesh made visible. -/
def commitCSG (clean : SrcGeom → SrcGeom) (m : CropMesh) (g : SrcGeom) : CropMesh :=
  { m with geom := clean ⟨g.pos.map m.wtl, g.uv⟩, visible := true }

/-- Fallback branch (source lines 344-358): run `clipMeshKeepInside`;
a non-null result is cleaned and committed with the mesh visible, a
null result hides the mesh and leaves its geometry untouched. -/
def runFallback (clean : SrcGeom → SrcGeom) (invB : Vec3 → Vec3) (half : Vec3)
    (m : CropMesh) : CropMesh :=
  match clipMeshKeepInside m.ltw m.wtl invB m.geom half with
  | some ng => { m with geom := clean ng, visible := true }
  | none => { m with visible := false }

/-- Per-mesh body of the crop traversal (source lines 310-359).
`csg` models `CSG.intersect` on the world-space meshes: `none` stands
for a thrown exception or a null result, `some g` for a result mesh
with geometry `g`.  Skinned meshes are skipped; a CSG result with a
positive position count is committed, anything else falls back to the
polygon clipper. -/
def cropOneMesh (csg : CropMesh → Option SrcGeom) (clean : SrcGeom → SrcGeom)
    (invB : Vec3 → Vec3) (half : Vec3) (m : CropMesh) : CropMesh :=
  if m.isSkinned then m
  else
    match csg m with
    | some g =>
      if 0 < g.pos.length then commitCSG clean m g
      else runFallback clean invB half m
    | none => runFallback clean invB half m

/-- The destructive crop application (source lines 288-363): validate
the region size, abort (returning every mesh untouched) when any axis
size is non-positive; otherwise expand by `eps = max size * 1e-5`,
form the half-extents `size/2 + eps` (line 346) and process every
mesh.  The oriented box's inverse world matrix is abstracted as
`invB`. -/
def applyCrop (csg : CropMesh → Option SrcGeom) (clean : SrcGeom → SrcGeom)
    (invB : Vec3 → Vec3) (crop : CropRegion) (meshes : List CropMesh) :
    List CropMesh :=
  let size := crop.size
  if size.x ≤ 0 ∨ size.y ≤ 0 ∨ size.z ≤ 0 then meshes
  else
    let eps := size.max3 * (1 / 100000)
    let half : Vec3 := ⟨size.x / 2 + eps, size.y / 2 + eps, size.z / 2 + eps⟩
    meshes.map (cropOneMesh csg clean invB half)

/-- Scene state touched by the resize effect: the group's position,
the loaded object's position and scale (three.js TRS components,
rotations identity as in the modelled scenarios), and the object's
geometry bounding box in its own local frame. -/
structure SceneState where
  groupPos : Vec3
  objPos : Vec3
  objScale : Vec3
  geomLo : Vec3
  geomHi : Vec3
deriving DecidableEq, Inhabited

/-- World-space bounding-box center computed by
`Box3.setFromObject`: translation by the group and object positions
plus the scaled geometry midpoint. -/
def boxCenter (st : SceneState) : Vec3 :=
  st.groupPos + st.objPos + st.objScale * (Vec3.smul (1 / 2) (st.geomLo + st.geomHi))

/-- World-space bounding-box size: the absolute scale times the
geometry extent (translations cancel). -/
def boxSize (st : SceneState) : Vec3 :=
  st.objScale.vabs * (st.geomHi - st.geomLo)

/-- The resize effect (source lines 382-409): reject a non-positive
target or a zero current size; convert the current size to
centimeters (`size * 100`), form the per-axis factors `target/cur`,
under `lockAspect` replace all three by the anchor axis's factor;
then perform the source's center dance literally — subtract the
bounding-box center from the group and object positions, multiply the
object's scale componentwise, and add the center back.  (The
`Number.isFinite` guard is vacuous over ℚ.) -/
def applySizeEffect (st : SceneState) (targetCm : Vec3) (lockAspect : Bool)
    (anchor : Axis) : SceneState :=
  if ¬(0 < targetCm.x ∧ 0 < targetCm.y ∧ 0 < targetCm.z) then st
  else
    let size := boxSize st
    if size.x = 0 ∨ size.y = 0 ∨ size.z = 0 then st
    else
      let curCm := Vec3.smul 100 size
      let sx0 := targetCm.x / curCm.x
      let sy0 := targetCm.y / curCm.y
      let sz0 := targetCm.z / curCm.z
      let r := match anchor with | .x => sx0 | .y => sy0 | .z => sz0
      let sx := if lockAspect then r else sx0
      let sy := if lockAspect then r else sy0
      let sz := if lockAspect then r else sz0
      let center := boxCenter st
      let st1 := { st with groupPos := st.groupPos - center, objPos := st.objPos - center }
      let st2 := { st1 with objScale := st1.objScale * (⟨sx, sy, sz⟩ : Vec3) }
      { st2 with groupPos := st2.groupPos + center, objPos := st2.objPos + center }

theorem concatMap_map (g : β → List γ) (h : α → β) (l : List α) :
    concatMap g (l.map h) = concatMap (fun x => g (h x)) l := by
  induction l with
  | nil => rfl
  | cons x xs ih => simp [concatMap, ih]

theorem concatMap_congr {f g : α → List β} :
    ∀ {l : List α}, (∀ x ∈ l, f x = g x) → concatMap f l = concatMap g l
  | [], _ => rfl
  | x :: xs, h => by
    simp only [concatMap, h x (List.mem_cons_self x xs)]
    rw [concatMap_congr (fun y hy => h y (List.mem_cons_of_mem x hy))]

theorem concatMap_zip_range [Inhabited α] (f : α × α → List β) :
    ∀ (p l : List α), p.length = l.length →
      concatMap f (p.zip l) =
        concatMap (fun i => f (p.getD i default, l.getD i default))
          (List.range l.length)
  | [], [], _ => rfl
  | [], _ :: _, h => by simp at h
  | _ :: _, [], h => by simp at h
  | a :: p, b :: l, h => by
    have h' : p.length = l.length := by simpa using h
    simp only [List.zip_cons_cons, concatMap, List.length_cons,
      List.range_succ_eq_map, concatMap_map]
    rw [show List.zipWith Prod.mk p l = p.zip l from rfl,
      concatMap_zip_range f p l h']
    simp [List.getD_cons_zero, List.getD_cons_succ]

theorem wrapPrev_getD (v : ClipVertex) (vs : List ClipVertex) (i : ℕ)
    (hi : i < (v :: vs).length) :
    ((v :: vs).getLast (List.cons_ne_nil v vs) :: (v :: vs).dropLast).getD i default =
      (v :: vs).getD ((i + (v :: vs).length - 1) % (v :: vs).length) default := by
  cases i with
  | zero =>
    have hn : (v :: vs).length - 1 < (v :: vs).length := by simp
    have h0 : (0 + (v :: vs).length - 1) % (v :: vs).length = (v :: vs).length - 1 :=
      by rw [Nat.zero_add]; exact Nat.mod_eq_of_lt hn
    rw [h0, List.getD_cons_zero, List.getD_eq_getElem _ _ hn,
      List.getLast_eq_getElem]
  | succ j =>
    have hj : j + 1 < (v :: vs).length := hi
    have hmod : (j + 1 + (v :: vs).length - 1) % (v :: vs).length = j := by
      have he : j + 1 + (v :: vs).length - 1 = j + (v :: vs).length := by omega
      rw [he, Nat.add_mod_right]
      exact Nat.mod_eq_of_lt (by omega)
    have hdl : j < (v :: vs).dropLast.length := by
      rw [List.length_dropLast]; omega
    rw [hmod, List.getD_cons_succ, List.getD_eq_getElem _ _ hdl,
      List.getD_eq_getElem _ _ (by omega : j < (v :: vs).length)]
    exact List.getElem_dropLast _ _ hdl

theorem emitCase_eq_specEmit (pl : Plane) (prev cur : ClipVertex) :
    emitCase pl prev cur = specEmit pl prev cur := by
  unfold emitCase specEmit
  cases hp : pl.isInside prev <;> cases hc : pl.isInside cur <;> simp

/-- C1: one pass of the per-plane clipper is exactly the concatenation,
over the wrap-around edge pairs `(prev, cur)` in input order, of the
four-case emission: `cur` when both endpoints are inside
(`s * local[axis] ≤ limit + 1e-7`), the intersection point alone when
leaving, the intersection point then `cur` when entering, nothing when
both are outside. -/
theorem clipByPlane_edge_cases (poly : List ClipVertex) (pl : Plane) :
    clipByPlane poly pl =
      concatMap (fun pc => specEmit pl pc.1 pc.2) (wrapPairs poly) := by
  cases poly with
  | nil => rfl
  | cons v vs =>
    have hne : ¬((v :: vs).length = 0) := by simp
    have hlen : ((v :: vs).getLast (List.cons_ne_nil v vs) :: (v :: vs).dropLast).length
        = (v :: vs).length := by
      simp [List.length_dropLast]
    rw [clipByPlane, if_neg hne]
    show _ = concatMap (fun pc => specEmit pl pc.1 pc.2)
      (((v :: vs).getLast (List.cons_ne_nil v vs) :: (v :: vs).dropLast).zip (v :: vs))
    rw [concatMap_zip_range _ _ _ hlen]
    apply concatMap_congr
    intro i hi
    rw [List.mem_range] at hi
    rw [wrapPrev_getD v vs i hi, emitCase_eq_specEmit]

/-- Zeta-expanded form of `tOf`, for case analysis. -/
theorem tOf_zeta (A B : ClipVertex) (axis : Axis) (limit : ℚ) :
    tOf A B axis limit =
      (if (if |B.pb.get axis - A.pb.get axis| < EPS then (1 : ℚ) / 2
           else (limit - A.pb.get axis) / (B.pb.get axis - A.pb.get axis)) < 0 then 0
       else if (if |B.pb.get axis - A.pb.get axis| < EPS then (1 : ℚ) / 2
           else (limit - A.pb.get axis) / (B.pb.get axis - A.pb.get axis)) > 1 then 1
       else (if |B.pb.get axis - A.pb.get axis| < EPS then (1 : ℚ) / 2
           else (limit - A.pb.get axis) / (B.pb.get axis - A.pb.get axis))) := rfl

/-- C2: the intersection parameter is `(limit - a)/(b - a)` when
`|b - a| ≥ ε` and `1/2` when `|b - a| < ε`, always clamped into
`[0,1]`; the returned vertex interpolates world position, box-local
position, and UV (when both endpoints carry one) linearly with that
same `t`; in particular at the `t = 1/2` fallback the UV is the
arithmetic mean of the endpoint UVs. -/
theorem intersect_param_spec (A B : ClipVertex) (axis : Axis) (limit : ℚ) :
    0 ≤ tOf A B axis limit ∧ tOf A B axis limit ≤ 1 ∧
    (|B.pb.get axis - A.pb.get axis| < EPS → tOf A B axis limit = 1 / 2) ∧
    (EPS ≤ |B.pb.get axis - A.pb.get axis| →
      tOf A B axis limit =
        max 0 (min 1 ((limit - A.pb.get axis) / (B.pb.get axis - A.pb.get axis)))) ∧
    (intersect A B axis limit).pw = A.pw.lerp B.pw (tOf A B axis limit) ∧
    (intersect A B axis limit).pb = A.pb.lerp B.pb (tOf A B axis limit) ∧
    (∀ ua ub, A.uv = some ua → B.uv = some ub →
      (intersect A B axis limit).uv = some (ua.lerp ub (tOf A B axis limit))) ∧
    (|B.pb.get axis - A.pb.get axis| < EPS →
      ∀ ua ub, A.uv = some ua → B.uv = some ub →
        (intersect A B axis limit).uv = some ⟨(ua.x + ub.x) / 2, (ua.y + ub.y) / 2⟩) := by
  have hpar : |B.pb.get axis - A.pb.get axis| < EPS → tOf A B axis limit = 1 / 2 := by
    intro h
    rw [tOf_zeta]
    simp only [if_pos h]
    norm_num
  have huv : ∀ ua ub, A.uv = some ua → B.uv = some ub →
      (intersect A B axis limit).uv = some (ua.lerp ub (tOf A B axis limit)) := by
    intro ua ub ha hb
    simp [intersect, ha, hb]
  refine ⟨?_, ?_, hpar, ?_, rfl, rfl, huv, ?_⟩
  · rw [tOf_zeta]
    split_ifs with h1 h2 h3 <;> linarith
  · rw [tOf_zeta]
    split_ifs with h1 h2 h3 <;> linarith
  · intro h
    have hni : ¬(|B.pb.get axis - A.pb.get axis| < EPS) := not_lt.mpr h
    rw [tOf_zeta]
    simp only [if_neg hni]
    rcases lt_trichotomy ((limit - A.pb.get axis) / (B.pb.get axis - A.pb.get axis)) 0 with hq | hq | hq
    · rw [if_pos hq, min_eq_right (by linarith), max_eq_left (by linarith)]
    · rw [if_neg (by linarith), if_neg (by linarith),
        min_eq_right (by linarith), max_eq_right (by linarith)]
    · by_cases hq1 : (limit - A.pb.get axis) / (B.pb.get axis - A.pb.get axis) > 1
      · rw [if_neg (by linarith), if_pos hq1, min_eq_left (by linarith)]
        norm_num
      · rw [if_neg (by linarith), if_neg hq1,
          min_eq_right (by linarith), max_eq_right (by linarith)]
  · intro h ua ub ha hb
    rw [huv ua ub ha hb, hpar h]
    simp only [Vec2.lerp, Option.some.injEq, Vec2.mk.injEq]
    constructor <;> ring

/-- Endpoint with UV `(0, 1)` for the witness edge. -/
def witA : ClipVertex := ⟨⟨0, 0, 0⟩, ⟨0, 0, 0⟩, some ⟨0, 1⟩⟩

/-- Endpoint with UV `(1, 1)` and the same `x` box coordinate. -/
def witB : ClipVertex := ⟨⟨1, 1, 1⟩, ⟨0, 0, 0⟩, some ⟨1, 1⟩⟩

/-- Witness for C2: on a near-parallel edge the interpolated UV is the
arithmetic mean `(1/2, 1)` of the endpoint UVs. -/
theorem intersect_param_spec_witness :
    (intersect witA witB Axis.x 0).uv = some ⟨1 / 2, 1⟩ := by
  have h := (intersect_param_spec witA witB Axis.x 0).2.2.2.2.2.2.2
    (by norm_num [witA, witB, Vec3.get, EPS]) ⟨0, 1⟩ ⟨1, 1⟩ rfl rfl
  rw [h]
  simp only [Option.some.injEq, Vec2.mk.injEq]
  norm_num

/-- C3: a crop request whose region has non-positive size along some
axis (equivalently a non-positive half-extent of `size/2`) aborts
before the mesh traversal: every mesh is returned untouched — no
geometry replaced, no visibility changed. -/
theorem applyCrop_invalidVolume_noop (csg : CropMesh → Option SrcGeom)
    (clean : SrcGeom → SrcGeom) (invB : Vec3 → Vec3) (crop : CropRegion)
    (meshes : List CropMesh)
    (h : crop.size.x ≤ 0 ∨ crop.size.y ≤ 0 ∨ crop.size.z ≤ 0) :
    applyCrop csg clean invB crop meshes = meshes := by
  simp only [applyCrop]
  rw [if_pos h]

/-- A concrete candidate mesh for witnesses. -/
def mWit : CropMesh := ⟨false, id, id, ⟨[], none⟩, true⟩

/-- Witness for C3 (spec Scenario 4): a volume with half-extent
`(0,1,1)` — region size `(0,2,2)` — leaves the mesh list unchanged. -/
theorem applyCrop_invalidVolume_noop_witness :
    applyCrop (fun _ => none) id id ⟨0, 0, -1, 1, -1, 1⟩ [mWit] = [mWit] :=
  applyCrop_invalidVolume_noop _ _ _ _ _ (Or.inl (by norm_num [CropRegion.size]))

/-- The scene state of the resize scenarios: untranslated unit-scale
object whose geometry spans `(0,0,0)..(0.02,0.04,0.08)` — a current
size of `(2,4,8)` cm. -/
def stW : SceneState :=
  ⟨⟨0, 0, 0⟩, ⟨0, 0, 0⟩, ⟨1, 1, 1⟩, ⟨0, 0, 0⟩, ⟨1 / 50, 1 / 25, 2 / 25⟩⟩

/-- C7: the resize effect's translate/scale/translate-back writes the
bounding-box center into the position components and then adds it
back unchanged — only the scale component is actually multiplied — so
the bounding-box center is NOT invariant: from `stW` (center
`(0.01, 0.02, 0.04)`), halving the size moves the center to
`(0.005, 0.01, 0.02)`.  This contradicts the source's own comment
"Scale around center to preserve placement" (line 399). -/
theorem applySize_center_moves :
    boxCenter (applySizeEffect stW ⟨1, 4, 8⟩ true Axis.x) ≠ boxCenter stW := by
  norm_num [applySizeEffect, boxSize, boxCenter, stW, Vec3.vabs, qabs,
    Vec3.smul, Vec3.add_def, Vec3.sub_def, Vec3.mul_def, Vec3.mk.injEq]

/-- Counterexample to C6 as stated: with current size `(2,4,8)` cm the
scale request `target = (1,0,0)` cm, `lockAspect`, anchor `x` is
rejected by the positive-target guard (line 385) — the state is
returned unchanged and the size stays `(2,4,8)` cm instead of the
claimed `(1,2,4)` cm. -/
theorem sizeTarget_guard_counterexample :
    applySizeEffect stW ⟨1, 0, 0⟩ true Axis.x = stW ∧
    boxSize stW ≠ ⟨1 / 100, 1 / 50, 1 / 25⟩ := by
  constructor
  · norm_num [applySizeEffect]
  · norm_num [boxSize, stW, Vec3.vabs, qabs, Vec3.sub_def, Vec3.mul_def,
      Vec3.mk.injEq]

/-- C6 amended: the as-written target `(1,0,0)` is rejected by the
positive-target guard, so take any target `(1, ty, tz)` cm with
`ty, tz > 0` (their values are discarded under `lockAspect` with
anchor `x`): the single ratio `target.x/current.x = 0.5` replaces all
three factors and the mesh of size `(2,4,8)` cm becomes `(1,2,4)` cm
(i.e. `(0.01, 0.02, 0.04)` m). -/
theorem lockAspect_scale_amended (ty tz : ℚ) (hy : 0 < ty) (hz : 0 < tz) :
    boxSize (applySizeEffect stW ⟨1, ty, tz⟩ true Axis.x) =
      ⟨1 / 100, 1 / 50, 1 / 25⟩ := by
  norm_num [applySizeEffect, boxSize, boxCenter, stW, Vec3.vabs, qabs,
    Vec3.smul, Vec3.add_def, Vec3.sub_def, Vec3.mul_def, hy, hz]

/-- Witness for the amended C6 at the concrete target `(1,4,8)` cm. -/
theorem lockAspect_scale_amended_witness :
    boxSize (applySizeEffect stW ⟨1, 4, 8⟩ true Axis.x) =
      ⟨1 / 100, 1 / 50, 1 / 25⟩ :=
  lockAspect_scale_amended 4 8 (by norm_num) (by norm_num)

/-- C9: for a non-skinned mesh the boolean (CSG) path is consulted
first — a result with at least one position is committed and the
polygon clipper skipped entirely; a CSG exception/null (`none`) or an
empty result runs the polygon-clipper fallback instead.  The dispatch
is total: the boolean failure is absorbed, never surfaced. -/
theorem cropOneMesh_dispatch (csg : CropMesh → Option SrcGeom)
    (clean : SrcGeom → SrcGeom) (invB : Vec3 → Vec3) (half : Vec3)
    (m : CropMesh) (hsk : m.isSkinned = false) :
    (∀ g, csg m = some g → 0 < g.pos.length →
      cropOneMesh csg clean invB half m = commitCSG clean m g) ∧
    (csg m = none →
      cropOneMesh csg clean invB half m = runFallback clean invB half m) ∧
    (∀ g, csg m = some g → g.pos.length = 0 →
      cropOneMesh csg clean invB half m = runFallback clean invB half m) := by
  refine ⟨?_, ?_, ?_⟩
  · intro g hg hlen
    simp [cropOneMesh, hsk, hg, hlen]
  · intro hg
    simp [cropOneMesh, hsk, hg]
  · intro g hg hlen
    simp [cropOneMesh, hsk, hg, hlen]

/-- A CSG result carrying one triangle. -/
def gCSG : SrcGeom := ⟨[⟨0, 0, 0⟩, ⟨1, 0, 0⟩, ⟨0, 1, 0⟩], none⟩

/-- Witness for C9: a successful non-empty CSG result is committed. -/
theorem cropOneMesh_dispatch_witness :
    cropOneMesh (fun _ => some gCSG) id id ⟨1, 1, 1⟩ mWit = commitCSG id mWit gCSG :=
  (cropOneMesh_dispatch _ id id ⟨1, 1, 1⟩ mWit rfl).1 gCSG rfl (by norm_num [gCSG])

/-- C5: when the CSG path failed (or was empty) and the polygon
clipper returns nothing, the mesh is marked hidden — `visible :=
false` — and its previous geometry reference is retained unchanged. -/
theorem fallback_empty_hides (csg : CropMesh → Option SrcGeom)
    (clean : SrcGeom → SrcGeom) (invB : Vec3 → Vec3) (half : Vec3)
    (m : CropMesh) (hsk : m.isSkinned = false)
    (hcsg : ∀ g, csg m = some g → g.pos.length = 0)
    (hclip : clipMeshKeepInside m.ltw m.wtl invB m.geom half = none) :
    cropOneMesh csg clean invB half m = { m with visible := false } ∧
    (cropOneMesh csg clean invB half m).geom = m.geom := by
  have hfb : runFallback clean invB half m = { m with visible := false } := by
    unfold runFallback
    rw [hclip]
  have hmain : cropOneMesh csg clean invB half m = { m with visible := false } := by
    unfold cropOneMesh
    cases hc : csg m with
    | none => simp [hsk, hc, hfb]
    | some g => simp [hsk, hc, hcsg g hc, hfb]
  exact ⟨hmain, by rw [hmain]⟩

/-- Witness for C5: a mesh whose clip yields no triangle is hidden
with its geometry kept. -/
theorem fallback_empty_hides_witness :
    cropOneMesh (fun _ => none) id id ⟨1, 1, 1⟩ mWit = { mWit with visible := false } :=
  (fallback_empty_hides _ id id ⟨1, 1, 1⟩ mWit rfl
    (fun _ h => Option.noConfusion h) rfl).1

theorem accumTris_fst (f : α → List β × List γ) (l : List α) :
    (accumTris f l).1 = concatMap (fun x => (f x).1) l := by
  induction l with
  | nil => rfl
  | cons x xs ih => simp [accumTris, concatMap, ih]

theorem concatMap_eq_nil_iff (f : α → List β) (l : List α) :
    concatMap f l = [] ↔ ∀ x ∈ l, f x = [] := by
  induction l with
  | nil => simp [concatMap]
  | cons x xs ih => simp [concatMap, ih]

theorem concatMap_threes_length (f1 f2 f3 : α → β) (l : List α) :
    (concatMap (fun x => [f1 x, f2 x, f3 x]) l).length = 3 * l.length := by
  induction l with
  | nil => rfl
  | cons x xs ih => simp [concatMap, ih]; ring

theorem triChunks3_concatMap_threes (f1 f2 f3 : α → β) (l : List α) :
    triChunks3 (concatMap (fun x => [f1 x, f2 x, f3 x]) l) =
      l.map (fun x => (f1 x, f2 x, f3 x)) := by
  induction l with
  | nil => rfl
  | cons x xs ih => simp [concatMap, triChunks3, ih]

theorem triChunks3_append :
    ∀ (l1 l2 : List α), l1.length % 3 = 0 →
      triChunks3 (l1 ++ l2) = triChunks3 l1 ++ triChunks3 l2
  | [], _, _ => rfl
  | [_], _, h => by simp at h
  | [_, _], _, h => by simp at h
  | a :: b :: c :: r, l2, h => by
    have hr : r.length % 3 = 0 := by
      simp only [List.length_cons] at h
      omega
    simp only [List.cons_append, triChunks3, List.cons.injEq, true_and]
    exact triChunks3_append r l2 hr

theorem processTri_length_mod3 (ltw wtl invB : Vec3 → Vec3) (half : Vec3)
    (v0 v1 v2 : SrcVertex) :
    (processTri ltw wtl invB half v0 v1 v2).1.length % 3 = 0 := by
  simp only [processTri]
  split_ifs <;> simp [concatMap_threes_length]

theorem mem_triChunks3_accum (f : α → List β × List γ) (P : β × β × β → Prop)
    (hmod : ∀ x, (f x).1.length % 3 = 0)
    (hmem : ∀ x, ∀ t ∈ triChunks3 (f x).1, P t) :
    ∀ (l : List α), ∀ t ∈ triChunks3 (accumTris f l).1, P t := by
  intro l
  induction l with
  | nil => intro t ht; simp [accumTris, triChunks3] at ht
  | cons x xs ih =>
    intro t ht
    simp only [accumTris] at ht
    rw [triChunks3_append _ _ (hmod x)] at ht
    rcases List.mem_append.mp ht with h | h
    · exact hmem x t h
    · exact ih t h

theorem processTri_sliver (ltw wtl invB : Vec3 → Vec3) (half : Vec3)
    (hround : ∀ p, ltw (wtl p) = p) (v0 v1 v2 : SrcVertex) :
    ∀ t ∈ triChunks3 (processTri ltw wtl invB half v0 v1 v2).1,
      ltNorm (half.max3 * EPS)
        (Vec3.normSq ((ltw t.2.1 - ltw t.1).cross (ltw t.2.2 - ltw t.1))) := by
  intro t ht
  revert ht
  simp only [processTri]
  split_ifs
  · intro ht
    exact absurd ht (by simp [triChunks3])
  · rw [triChunks3_concatMap_threes]
    intro ht
    rcases List.mem_map.mp ht with ⟨tri, htri, rfl⟩
    have hk : keepTri half tri = true := List.of_mem_filter htri
    have hk2 : ltNorm (half.max3 * EPS)
        (Vec3.normSq ((tri.2.1.pw - tri.1.pw).cross (tri.2.2.pw - tri.1.pw))) := by
      simpa [keepTri] using hk
    simpa [hround] using hk2
  · intro ht
    exact absurd ht (by simp [triChunks3])
  · rw [triChunks3_concatMap_threes]
    intro ht
    rcases List.mem_map.mp ht with ⟨tri, htri, rfl⟩
    have hk : keepTri half tri = true := List.of_mem_filter htri
    have hk2 : ltNorm (half.max3 * EPS)
        (Vec3.normSq ((tri.2.1.pw - tri.1.pw).cross (tri.2.2.pw - tri.1.pw))) := by
      simpa [keepTri] using hk
    simpa [hround] using hk2

/-- C8: every triangle emitted by the fan triangulation passes the
sliver filter: its world-space cross-product magnitude exceeds
`volumeScale * 1e-7` with `volumeScale = max(half.x, half.y, half.z)`
(encoded over ℚ as `ltNorm c q ↔ c < ‖·‖ = √q`; non-finite magnitudes
cannot arise in exact arithmetic).  Stated on the committed output:
under an exact inverse (`ltw ∘ wtl = id`), every consecutive vertex
triple of the output position attribute satisfies the bound. -/
theorem clip_sliver_filter (ltw wtl invB : Vec3 → Vec3) (g : SrcGeom)
    (half : Vec3) (out : SrcGeom)
    (hround : ∀ p, ltw (wtl p) = p)
    (hout : clipMeshKeepInside ltw wtl invB g half = some out) :
    ∀ t ∈ triChunks3 out.pos,
      ltNorm (half.max3 * EPS)
        (Vec3.normSq ((ltw t.2.1 - ltw t.1).cross (ltw t.2.2 - ltw t.1))) := by
  simp only [clipMeshKeepInside] at hout
  split at hout
  · exact absurd hout (by simp)
  · injection hout with h
    subst h
    show ∀ t ∈ triChunks3 (clipAccum ltw wtl invB g half).1, _
    unfold clipAccum
    have hmod : ∀ (x : SrcVertex × SrcVertex × SrcVertex),
        ((fun t : SrcVertex × SrcVertex × SrcVertex =>
          processTri ltw wtl invB half t.1 t.2.1 t.2.2) x).1.length % 3 = 0 :=
      fun x => processTri_length_mod3 ltw wtl invB half x.1 x.2.1 x.2.2
    have hmem : ∀ (x : SrcVertex × SrcVertex × SrcVertex),
        ∀ t ∈ triChunks3 ((fun t : SrcVertex × SrcVertex × SrcVertex =>
          processTri ltw wtl invB half t.1 t.2.1 t.2.2) x).1,
          (fun t : Vec3 × Vec3 × Vec3 => ltNorm (half.max3 * EPS)
            (Vec3.normSq ((ltw t.2.1 - ltw t.1).cross (ltw t.2.2 - ltw t.1)))) t :=
      fun x => processTri_sliver ltw wtl invB half hround x.1 x.2.1 x.2.2
    exact mem_triChunks3_accum _ _ hmod hmem (triChunks3 (mkVerts g))

theorem concatMap_length_mod3 (f : α → List β) (l : List α)
    (h : ∀ x ∈ l, (f x).length % 3 = 0) : (concatMap f l).length % 3 = 0 := by
  induction l with
  | nil => rfl
  | cons x xs ih =>
    simp only [concatMap, List.length_append]
    have h1 := h x (List.mem_cons_self x xs)
    have h2 := ih (fun y hy => h y (List.mem_cons_of_mem x hy))
    omega

/-- C10: `clipMeshKeepInside` returns `none` exactly when no source
triangle contributes any output; every non-null result is a triangle
soup whose position count is a positive multiple of 3, and it carries
a UV attribute iff the source geometry has one. -/
theorem clip_result_shape (ltw wtl invB : Vec3 → Vec3) (g : SrcGeom) (half : Vec3) :
    (clipMeshKeepInside ltw wtl invB g half = none ↔
      ∀ t ∈ triChunks3 (mkVerts g),
        (processTri ltw wtl invB half t.1 t.2.1 t.2.2).1 = []) ∧
    (∀ out, clipMeshKeepInside ltw wtl invB g half = some out →
      0 < out.pos.length ∧ out.pos.length % 3 = 0 ∧
        (out.uv.isSome ↔ g.uv.isSome)) := by
  have hfst : (clipAccum ltw wtl invB g half).1 =
      concatMap (fun t => (processTri ltw wtl invB half t.1 t.2.1 t.2.2).1)
        (triChunks3 (mkVerts g)) := by
    unfold clipAccum
    exact accumTris_fst _ _
  have hiff : (clipAccum ltw wtl invB g half).1 = [] ↔
      ∀ t ∈ triChunks3 (mkVerts g),
        (processTri ltw wtl invB half t.1 t.2.1 t.2.2).1 = [] := by
    rw [hfst]
    exact concatMap_eq_nil_iff _ _
  constructor
  · simp only [clipMeshKeepInside]
    split_ifs with hE
    · constructor
      · intro _
        exact hiff.mp (List.isEmpty_iff.mp hE)
      · intro _
        rfl
    · constructor
      · intro hc
        exact absurd hc (by simp)
      · intro hall
        exact absurd (List.isEmpty_iff.mpr (hiff.mpr hall)) hE
  · intro out hout
    simp only [clipMeshKeepInside] at hout
    split at hout
    · exact absurd hout (by simp)
    · rename_i hE
      injection hout with h
      subst h
      refine ⟨?_, ?_, ?_⟩
      · have hne : (clipAccum ltw wtl invB g half).1 ≠ [] := by
          simpa [List.isEmpty_iff] using hE
        exact List.length_pos.mpr hne
      · show (clipAccum ltw wtl invB g half).1.length % 3 = 0
        rw [hfst]
        exact concatMap_length_mod3 _ _
          (fun x _ => processTri_length_mod3 ltw wtl invB half x.1 x.2.1 x.2.2)
      · cases hu : g.uv <;> simp [hu]

theorem toClip_pw (ltw invB : Vec3 → Vec3) (sv : SrcVertex) :
    (toClip ltw invB sv).pw = ltw sv.p := rfl

theorem toClip_uv (ltw invB : Vec3 → Vec3) (sv : SrcVertex) :
    (toClip ltw invB sv).uv = sv.uv := rfl

/-- A fully interior, non-degenerate, UV-mapped triangle. -/
def gW : SrcGeom :=
  ⟨[⟨0, 0, 0⟩, ⟨1, 0, 0⟩, ⟨0, 1, 0⟩], some [⟨0, 0⟩, ⟨1, 0⟩, ⟨0, 1⟩]⟩

/-- The clip of `gW` by the unit-half-extent box (identity
transforms): the triangle survives unchanged. -/
def outW : SrcGeom :=
  ⟨[⟨0, 0, 0⟩, ⟨1, 0, 0⟩, ⟨0, 1, 0⟩], some [⟨0, 0⟩, ⟨1, 0⟩, ⟨0, 1⟩]⟩

set_option maxRecDepth 4000 in
theorem clipW_eval : clipMeshKeepInside id id id gW ⟨1, 1, 1⟩ = some outW := by
  simp only [clipMeshKeepInside, clipAccum, mkVerts, gW, triChunks3, accumTris,
    processTri]
  norm_num [toClip, insideBox, insideX, insideY, insideZ, EPS, fanTris, keepTri,
    ltNorm, Vec3.max3, Vec3.cross, Vec3.normSq, Vec3.sub_def, concatMap, uvTriple,
    outW]

/-- Witness for C8: the emitted triangle of `gW` satisfies the sliver
bound — its cross-product norm squared `1` exceeds
`(max3(1,1,1) * 1e-7)^2`. -/
theorem clip_sliver_filter_witness :
    ltNorm ((Vec3.mk 1 1 1).max3 * EPS)
      (Vec3.normSq (((⟨1, 0, 0⟩ : Vec3) - ⟨0, 0, 0⟩).cross
        ((⟨0, 1, 0⟩ : Vec3) - ⟨0, 0, 0⟩))) :=
  clip_sliver_filter id id id gW ⟨1, 1, 1⟩ outW (fun _ => rfl) clipW_eval
    (⟨0, 0, 0⟩, ⟨1, 0, 0⟩, ⟨0, 1, 0⟩) (by simp [outW, triChunks3])

/-- Witness for C10: the non-null clip of `gW` has a positive
multiple-of-3 vertex count and carries a UV attribute like its
source. -/
theorem clip_result_shape_witness :
    0 < outW.pos.length ∧ outW.pos.length % 3 = 0 ∧
      (outW.uv.isSome ↔ gW.uv.isSome) :=
  (clip_result_shape id id id gW ⟨1, 1, 1⟩).2 outW clipW_eval

/-- A zero-area triangle lying entirely inside the volume. -/
def gDeg : SrcGeom := ⟨[⟨0, 0, 0⟩, ⟨0, 0, 0⟩, ⟨0, 0, 0⟩], none⟩

/-- Counterexample to C4 as stated: every vertex of `gDeg` passes the
quick-accept bound `|local.axis| ≤ half.axis + ε` on all axes, yet the
clip output is `none` — the sliver-area filter also applies to
quick-accepted triangles and drops this one instead of keeping it
unchanged. -/
theorem quickAccept_sliver_counterexample :
    ((mkVerts gDeg).all fun v => insideBox ⟨1, 1, 1⟩ (toClip id id v).pb) = true ∧
    clipMeshKeepInside id id id gDeg ⟨1, 1, 1⟩ = none := by
  constructor
  · norm_num [mkVerts, gDeg, toClip, insideBox, insideX, insideY, insideZ, EPS]
  · simp only [clipMeshKeepInside, clipAccum, mkVerts, gDeg, triChunks3,
      accumTris, processTri]
    norm_num [toClip, insideBox, insideX, insideY, insideZ, EPS, fanTris,
      keepTri, ltNorm, Vec3.max3, Vec3.cross, Vec3.normSq, Vec3.sub_def,
      concatMap, uvTriple]

/-- C4 amended: a triangle whose three vertices all satisfy
`|local.axis| ≤ half.axis + ε` on every axis is quick-accepted — the
six per-plane passes are skipped — and, PROVIDED it also passes the
sliver-area filter (counterexample: a fully interior zero-area
triangle is dropped), it is emitted unchanged: output positions are
the input local positions (exact inverse transform assumed) and the
UVs are carried through. -/
theorem quickAccept_keeps_amended (ltw wtl invB : Vec3 → Vec3) (half : Vec3)
    (hround : ∀ p, wtl (ltw p) = p) (v0 v1 v2 : SrcVertex)
    (hin : ([toClip ltw invB v0, toClip ltw invB v1, toClip ltw invB v2].all
      fun p => insideBox half p.pb) = true)
    (hkeep : keepTri half
      (toClip ltw invB v0, toClip ltw invB v1, toClip ltw invB v2) = true) :
    processTri ltw wtl invB half v0 v1 v2 =
      ([v0.p, v1.p, v2.p],
        uvTriple (toClip ltw invB v0, toClip ltw invB v1, toClip ltw invB v2)) := by
  simp only [processTri]
  rw [if_pos hin, if_neg (by norm_num)]
  simp [fanTris, hkeep, concatMap, toClip_pw, hround]

/-- Witness for the amended C4: the interior triangle of `gW`'s shape
(no UVs) is returned unchanged by `processTri`. -/
theorem quickAccept_keeps_amended_witness :
    processTri id id id ⟨1, 1, 1⟩ ⟨⟨0, 0, 0⟩, none⟩ ⟨⟨1, 0, 0⟩, none⟩
        ⟨⟨0, 1, 0⟩, none⟩ =
      ([⟨0, 0, 0⟩, ⟨1, 0, 0⟩, ⟨0, 1, 0⟩], []) :=
  quickAccept_keeps_amended id id id ⟨1, 1, 1⟩ (fun _ => rfl) _ _ _
    (by norm_num [toClip, insideBox, insideX, insideY, insideZ, EPS])
    (by norm_num [keepTri, toClip, ltNorm, Vec3.max3, Vec3.cross, Vec3.normSq,
      Vec3.sub_def, EPS])
